import Mathlib

/-!
Verification of the openshift-acme controller core against its specification.

The Go sources embedded here are `pkg/controllers/route/route.go` (the
endpoint/route reconciler, renewal policy, status codec and challenge
exposer) and `pkg/controller/issuer/acme/acme.go` (the account reconciler).
External collaborators (the k8s object store, the ACME client transport,
crypto and codec libraries) are modelled as explicit oracle parameters, as
the specification treats them as out of scope.

Machine integers are modelled as `Int`/`Nat` (no wraparound is reachable in
the embedded arithmetic); `time.Time`/`time.Duration` values are Unix
nanoseconds as `Int`, matching Go's internal representation; Go's integer
division on durations truncates toward zero and is modelled by `Int.tdiv`.
-/

/-! ### Provisioning status data model (api.Status)

The `api` package itself is not under `src/`; the record shape is modelled
from the spec: "a nullable record \x7border_uri, started_at, order_status,
observed_generation\x7d", JSON-encoded under a well-known annotation.
-/

/-- Field `ProvisioningStatus` of `api.Status`: `order_uri`, `started_at`
(Unix nanoseconds) and the last observed ACME order status. -/
structure ProvisioningStatus where
  orderUri : String
  startedAt : Int
  orderStatus : String
deriving DecidableEq

/-- The per-route provisioning status blob (`api.Status`): a nullable
provisioning record plus the observed generation. -/
structure Status where
  provisioningStatus : Option ProvisioningStatus
  observedGeneration : Int
deriving DecidableEq

/-- Zero value of `api.Status`, produced by `&api.Status\x7b\x7d` in Go. -/
def zeroStatus : Status :=
  { provisioningStatus := none, observedGeneration := 0 }

/-! ### JSON codec for the status blob

Modelled from the spec: the status blob is stored as "JSON under a
well-known annotation"; the Go side uses stdlib `encoding/json`, which is
an external collaborator. The model codec below produces a canonical JSON
document (fixed field order, strings escaped) and the decoder accepts
exactly the canonical form; decoding the empty string fails, as stdlib
`json.Unmarshal` fails on empty input. -/

/-- Decimal digit test used by the number parser. -/
def isDigitChar (c : Char) : Bool :=
  '0' ≤ c && c ≤ '9'

/-- Value of a decimal digit character. -/
def charDigit (c : Char) : Nat :=
  c.toNat - '0'.toNat

/-- Fuel-based most-significant-first decimal digits of a natural number. -/
def natCharsAux : Nat → Nat → List Char
  | 0, _ => []
  | fuel + 1, n =>
    if n = 0 then []
    else natCharsAux fuel (n / 10) ++ [Nat.digitChar (n % 10)]

/-- Decimal notation of a natural number (as produced by Go's
`strconv`/`encoding/json` for integers). -/
def natLit (n : Nat) : List Char :=
  if n = 0 then ['0'] else natCharsAux (n + 1) n

/-- Decimal notation of an integer, with a leading minus sign when
negative. -/
def intLitChars (i : Int) : List Char :=
  if i < 0 then '-' :: natLit i.natAbs else natLit i.toNat

/-- JSON string escaping: backslash-escape the quote and backslash
characters. -/
def escChars : List Char → List Char
  | [] => []
  | c :: cs =>
    if c = '"' ∨ c = '\\' then '\\' :: c :: escChars cs else c :: escChars cs

/-- Parse the body of a JSON string up to and including the closing quote,
undoing `escChars`; returns the decoded body and the rest of the input. -/
def parseQuotedAux : List Char → Option (List Char × List Char)
  | [] => none
  | c :: cs =>
    if c = '"' then some ([], cs)
    else if c = '\\' then
      match cs with
      | [] => none
      | d :: ds =>
        if d = '"' ∨ d = '\\' then
          match parseQuotedAux ds with
          | some (u, r) => some (d :: u, r)
          | none => none
        else none
    else
      match parseQuotedAux cs with
      | some (u, r) => some (c :: u, r)
      | none => none

/-- Consume an expected literal pattern from the front of the input. -/
def expectChars : List Char → List Char → Option (List Char)
  | [], s => some s
  | _ :: _, [] => none
  | p :: ps, c :: cs => if c = p then expectChars ps cs else none

/-- Split the input into its leading run of decimal digits and the rest. -/
def spanDigits : List Char → List Char × List Char
  | [] => ([], [])
  | c :: cs =>
    if isDigitChar c then
      let p := spanDigits cs
      (c :: p.1, p.2)
    else ([], c :: cs)

/-- Numeric value of a most-significant-first digit string. -/
def digitsVal (l : List Char) : Nat :=
  l.foldl (fun a c => a * 10 + charDigit c) 0

/-- Parse a nonempty run of decimal digits as a natural number. -/
def parseNatChars (s : List Char) : Option (Nat × List Char) :=
  let p := spanDigits s
  if p.1 = [] then none else some (digitsVal p.1, p.2)

/-- Parse an optionally negated decimal integer. -/
def parseIntChars : List Char → Option (Int × List Char)
  | [] => none
  | c :: cs =>
    if c = '-' then
      match parseNatChars cs with
      | some (n, r) => some (-(n : Int), r)
      | none => none
    else
      match parseNatChars (c :: cs) with
      | some (n, r) => some ((n : Int), r)
      | none => none

/-- Literal fragment opening the provisioning-status object up to the value
of the first field. -/
def psPatA : List Char := "\x7b\"orderUri\":\"".data

/-- Literal fragment between the `orderUri` and `startedAt` fields. -/
def psPatB : List Char := ",\"startedAt\":".data

/-- Literal fragment between the `startedAt` and `orderStatus` fields. -/
def psPatC : List Char := ",\"orderStatus\":\"".data

/-- Literal fragment closing the provisioning-status object. -/
def psPatD : List Char := "\x7d".data

/-- Literal fragment opening the status object. -/
def stPatA : List Char := "\x7b\"provisioningStatus\":".data

/-- Literal fragment between the `provisioningStatus` and
`observedGeneration` fields. -/
def stPatB : List Char := ",\"observedGeneration\":".data

/-- Literal fragment closing the status object. -/
def stPatD : List Char := "\x7d".data

/-- JSON `null` literal. -/
def nullPat : List Char := "null".data

/-- Canonical JSON text of a provisioning-status record. -/
def marshalPSChars (ps : ProvisioningStatus) : List Char :=
  psPatA ++ (escChars ps.orderUri.data ++ ('"' ::
    (psPatB ++ (intLitChars ps.startedAt ++
      (psPatC ++ (escChars ps.orderStatus.data ++ ('"' :: psPatD)))))))

/-- Canonical JSON text of a status blob (`json.Marshal` model). -/
def marshalStatusChars (s : Status) : List Char :=
  stPatA ++
    ((match s.provisioningStatus with
      | none => nullPat
      | some ps => marshalPSChars ps) ++
      (stPatB ++ (intLitChars s.observedGeneration ++ stPatD)))

/-- String form of the canonical status JSON. -/
def marshalStatus (s : Status) : String :=
  ⟨marshalStatusChars s⟩

/-- Decode one provisioning-status object from the front of the input. -/
def unmarshalPSChars (s : List Char) : Option (ProvisioningStatus × List Char) :=
  match expectChars psPatA s with
  | none => none
  | some s1 =>
    match parseQuotedAux s1 with
    | none => none
    | some (uri, s2) =>
      match expectChars psPatB s2 with
      | none => none
      | some s3 =>
        match parseIntChars s3 with
        | none => none
        | some (t, s4) =>
          match expectChars psPatC s4 with
          | none => none
          | some s5 =>
            match parseQuotedAux s5 with
            | none => none
            | some (st, s6) =>
              match expectChars psPatD s6 with
              | none => none
              | some s7 => some (⟨⟨uri⟩, t, ⟨st⟩⟩, s7)

/-- Decode the tail of a status object after its provisioning-status
value. -/
def unmarshalStatusTail (ps : Option ProvisioningStatus) (s : List Char) :
    Option (Status × List Char) :=
  match expectChars stPatB s with
  | none => none
  | some s1 =>
    match parseIntChars s1 with
    | none => none
    | some (g, s2) =>
      match expectChars stPatD s2 with
      | none => none
      | some s3 => some (⟨ps, g⟩, s3)

/-- Decode one status object from the front of the input. -/
def unmarshalStatusChars (s : List Char) : Option (Status × List Char) :=
  match expectChars stPatA s with
  | none => none
  | some s1 =>
    match expectChars nullPat s1 with
    | some s2 => unmarshalStatusTail none s2
    | none =>
      match unmarshalPSChars s1 with
      | none => none
      | some (ps, s2) => unmarshalStatusTail (some ps) s2

/-- Decode a status blob from a whole string (`json.Unmarshal` model):
the document must parse and leave no trailing input. -/
def unmarshalStatus (str : String) : Option Status :=
  match unmarshalStatusChars str.data with
  | some (s, []) => some s
  | _ => none

/-! ### Route data model

`routev1.Route` is an external API type; only the fields read or written by
the reconciler are modelled (spec §3: "host, admission state, generation,
deletion marker, TLS key and certificate fields", plus the annotations map
holding the status blob). The annotations map is `Option`-valued to mirror
Go's distinction between a nil map and a present map. -/

/-- TLS material carried on a route (`route.Spec.TLS`). -/
structure TLSConfig where
  key : String
  certificate : String
deriving DecidableEq

/-- The managed routable endpoint object, restricted to the fields this
core reads or writes. `admitted` models `routeutil.IsAdmitted` (the helper
package is not under `src/`); `deletionTimestamp`, `generation`, `uid` and
`annotations` mirror the object metadata. -/
structure Route where
  name : String
  ns : String
  host : String
  uid : String
  generation : Int
  deletionTimestamp : Option Int
  admitted : Bool
  annotations : Option (List (String × String))
  tls : Option TLSConfig
deriving DecidableEq

/-- The well-known status annotation key (`api.AcmeStatusAnnotation`; the
`api` package is not under `src/`, the exact constant value is immaterial
to the embedded logic). -/
def acmeStatusAnnKey : String := "acme.openshift.io/status"

/-- The temporary-object label key (`api.AcmeTemporaryLabel`). -/
def acmeTemporaryLabelKey : String := "acme.openshift.io/temporary"

/-- Go map indexing with the string zero value: a missing key reads as the
empty string. -/
def lookupAnn (m : List (String × String)) (k : String) : String :=
  (m.lookup k).getD ""

/-- Replace the value under a key, or append the pair when absent
(`metav1.SetMetaDataAnnotation` on the underlying map). -/
def upsertAnn : List (String × String) → String → String → List (String × String)
  | [], k, v => [(k, v)]
  | (k', v') :: rest, k, v =>
    if k' = k then (k, v) :: rest else (k', v') :: upsertAnn rest k v

/-- `RouteController.getStatus` (route.go:313): start from the zero status;
when the annotations map is non-nil, JSON-decode the annotation value (the
empty string when the key is absent); a decode failure is an error. -/
def getStatus (route : Route) : Except String Status :=
  match route.annotations with
  | none => .ok zeroStatus
  | some m =>
    match unmarshalStatus (lookupAnn m acmeStatusAnnKey) with
    | none => .error "can't decode status annotation"
    | some s => .ok s

/-- `metav1.SetMetaDataAnnotation`: ensure the annotations map exists and
set the key. -/
def setMetaDataAnn (route : Route) (k v : String) : Route :=
  { route with annotations := some (upsertAnn ((route.annotations).getD []) k v) }

/-- `RouteController.setStatus` (route.go:330): write the observed
generation into the status, JSON-encode it and store it under the status
annotation. Returns the updated route together with the (mutated) status
value, mirroring the in-place mutation of the Go argument. -/
def setStatus (route : Route) (status : Status) : Route × Status :=
  let status' := { status with observedGeneration := route.generation }
  (setMetaDataAnn route acmeStatusAnnKey (marshalStatus status'), status')

/-! ### Renewal policy (`needsCertKey`, route.go:264) -/

/-- Decoded certificate view: validity bounds as Unix nanoseconds and the
hostnames the certificate is valid for. PEM/X.509 decoding itself is an
external codec and is passed in as an oracle. -/
structure Certificate where
  notBefore : Int
  notAfter : Int
  hostnames : List String
deriving DecidableEq

/-- Modelled from the spec: `certificate.VerifyHostname(host)` of the
external x509 library succeeds exactly when the certificate covers the
host. -/
def verifyHostname (c : Certificate) (host : String) : Bool :=
  c.hostnames.contains host

/-- Modelled from the spec: `cert.IsValid(certificate, t)` of the
`pkg/cert` helper (not under `src/`) — the certificate is unexpired at the
evaluation time, i.e. `t` lies within its validity bounds. -/
def certIsValid (c : Certificate) (t : Int) : Bool :=
  decide (c.notBefore ≤ t) && decide (t < c.notAfter)

/-- `RenewalStandardDeviation` (route.go:54). -/
def RenewalStandardDeviation : ℚ := 1

/-- `RenewalMean` (route.go:55). -/
def RenewalMean : ℚ := 0

/-- `needsCertKey` (route.go:264): decide whether the route needs a new
certificate at time `t`. `decodeCert` models `cert.CertPemData.Certificate`
(external PEM codec); `normSample` models the standard-normal draw seeded
from `t.UnixNano()` (`rand.NormFloat64`), with the float value modelled as
a rational — only its sign is consulted. Returns `.error` for a Go error
and `.ok reason` otherwise, the empty reason meaning no renewal. -/
def needsCertKey (decodeCert : String → String → Option Certificate)
    (normSample : Int → ℚ) (t : Int) (route : Route) : Except String String :=
  match route.tls with
  | none => .ok "Route is missing CertKey"
  | some tls =>
    if tls.key = "" ∨ tls.certificate = "" then .ok "Route is missing CertKey"
    else
      match decodeCert tls.key tls.certificate with
      | none => .error "can't decode certificate from Route"
      | some certificate =>
        if ¬ verifyHostname certificate route.host then
          .error "existing certificate doesn't match hostname"
        else if ¬ certIsValid certificate t then .ok "Already expired"
        else
          let remains := certificate.notAfter - t
          let lifetime := certificate.notAfter - certificate.notBefore
          if remains ≤ lifetime.tdiv 3 then .ok "In renewal period"
          else if remains ≤ lifetime.tdiv 2 then
            let n : ℚ := normSample t * RenewalStandardDeviation + RenewalMean
            if n < 0 then .ok "Proactive renewal" else .ok ""
          else .ok ""

/-! ### ACME protocol objects and the challenge exposer -/

/-- An ACME challenge as seen through the client library (`acme.Challenge`):
only the fields the reconciler reads. -/
structure AcmeChallenge where
  typ : String
  uri : String
  token : String
  status : String
deriving DecidableEq

/-- An ACME authorization (`acme.Authorization`). -/
structure AcmeAuthz where
  uri : String
  status : String
  challenges : List AcmeChallenge
deriving DecidableEq

/-- An ACME order (`acme.Order`). -/
structure AcmeOrder where
  uri : String
  status : String
  authzUrls : List String
  finalizeUrl : String
deriving DecidableEq

/-- The challenge-selection loop of `handle` (route.go:500-505): iterate
over the authorization's challenges, remembering every challenge whose
type is `http-01`; the variable ends up holding the final match. -/
def selectChallenge (cs : List AcmeChallenge) : Option AcmeChallenge :=
  cs.foldl (fun acc c => if c.typ = "http-01" then some c else acc) none

/-- Spec-side selection function, following the spec's words "first
challenge with `type == \"http-01\"`"; kept separate so it can be compared
with the loop embedded from the source. -/
def firstHttp01 (cs : List AcmeChallenge) : Option AcmeChallenge :=
  cs.find? (fun c => c.typ = "http-01")

/-- Error returned by an ACME RPC: either a protocol error carrying an
HTTP status code (`*acme.Error`) or any other error value. -/
inductive FetchErr
  | acmeErr (statusCode : Nat) (msg : String)
  | otherErr (msg : String)
deriving DecidableEq

/-- Message carried by a fetch error (what `err.Error()` surfaces). -/
def fetchErrMsg : FetchErr → String
  | .acmeErr _ m => m
  | .otherErr m => m

/-- An owner reference on a cluster object: the owning object's UID and
whether the reference is a controller reference. -/
structure OwnerRef where
  ownerUid : String
  controller : Bool
deriving DecidableEq

/-- A cluster object as handled by the exposer (responder route,
replica-set or service), restricted to the metadata the reconciler reads
or writes plus a bag of kind-specific attributes. -/
structure KObj where
  name : String
  uid : String
  resourceVersion : String
  ownerRefs : List OwnerRef
  labels : List (String × String)
  attrs : List (String × String)
deriving DecidableEq

/-- `metav1.GetControllerOf`: the first owner reference marked as
controller, if any. -/
def getControllerOf (obj : KObj) : Option OwnerRef :=
  obj.ownerRefs.find? (fun r => r.controller)

/-- `metav1.IsControlledBy(obj, owner)`: the object's controller reference
exists and points at the owner's UID. -/
def isControlledBy (obj : KObj) (ownerUid : String) : Bool :=
  match getControllerOf obj with
  | some r => r.ownerUid = ownerUid
  | none => false

/-- Outcome of a `Create` call against the object store. -/
inductive KubeCreateResult
  | created (obj : KObj)
  | alreadyExists
  | failed (msg : String)

/-- Object-store surface for one kind, supplied as an oracle. -/
structure KubeKindEnv where
  create : KObj → KubeCreateResult
  get : String → Except String KObj
  update : KObj → Except String KObj

/-- The create-or-adopt protocol of `handle` (route.go:544-571, 609-636,
654-681): attempt create; on already-exists, get the existing object,
require it to be controller-owned by `parentUid` (the parent route's UID
at every call site), refresh the resource version and update. The bounded
`retry.RetryOnConflict` loop is modelled as a single iteration, conflicts
being an oracle-level outcome. -/
def createOrAdopt (k : KubeKindEnv) (desired : KObj) (parentUid : String)
    (collisionMsg : String) : Except String KObj :=
  match k.create desired with
  | .created obj => .ok obj
  | .failed m => .error m
  | .alreadyExists =>
    match k.get desired.name with
    | .error m => .error m
    | .ok existing =>
      if isControlledBy existing parentUid then
        k.update ({ desired with resourceVersion := existing.resourceVersion })
      else .error collisionMsg

/-- `getTemporaryName` (route.go:950): deterministic exposer name derived
from the colon-joined key. The SHA-512 digest and its `fmt` rendering are
an external crypto/format concern, passed in as the oracle `sha512Name`. -/
def getTemporaryName (sha512Name : String → String) (key : String) : String :=
  "acme-exposer-" ++ sha512Name key

/-! ### The endpoint reconciler handler (`handle`, route.go:369) -/

/-- ACME object status strings (`acme.Status*` constants of the client
library). -/
def statusPending : String := "pending"

/-- `acme.StatusValid`. -/
def statusValid : String := "valid"

/-- `acme.StatusInvalid`. -/
def statusInvalid : String := "invalid"

/-- `acme.StatusReady`. -/
def statusReady : String := "ready"

/-- `acme.StatusProcessing`. -/
def statusProcessing : String := "processing"

/-- `acme.StatusDeactivated`. -/
def statusDeactivated : String := "deactivated"

/-- `acme.StatusExpired`. -/
def statusExpired : String := "expired"

/-- `acme.StatusRevoked`. -/
def statusRevoked : String := "revoked"

/-- Oracle environment for one `handle` invocation: the ACME client calls,
the object-store surfaces for the three exposer kinds, the route update
for installing TLS material, and the codec/random oracles consumed by the
renewal policy. -/
structure RouteHandleEnv where
  authorizeOrder : String → Except String AcmeOrder
  getOrder : String → Except FetchErr AcmeOrder
  getAuthorization : String → Except String AcmeAuthz
  accept : String → Except String Unit
  http01ChallengePath : String → String
  createOrderCert : String → Except String (List Nat)
  certFromDER : List Nat → Except String TLSConfig
  updateRouteResult : Except String Unit
  exposerRouteKube : KubeKindEnv
  exposerRSKube : KubeKindEnv
  exposerServiceKube : KubeKindEnv
  sha512Name : String → String
  decodeCert : String → String → Option Certificate
  normSample : Int → ℚ

/-- Observable side effects of one handler invocation. -/
inductive Effect
  | authorizeOrderCall (domain : String)
  | getOrderCall (uri : String)
  | getAuthorizationCall (uri : String)
  | acceptCall (challengeUri : String)
  | createOrderCertCall (finalizeUrl : String)
  | updateRouteTLS
  | queueAddAfterSeconds (n : Nat)
  | eventWarning (reason : String)
deriving DecidableEq

/-- How one handler invocation terminates: a nil return, an error return,
or a runtime panic (recovered by the outer `runtime.HandleCrash`). -/
inductive HandleOutcome
  | success
  | failure (msg : String)
  | panicked (msg : String)
deriving DecidableEq

/-- Result of one handler invocation: termination mode, the sequence of
observable calls, and the status persisted by a final `updateStatus`
(if the handler reached one; the store write itself is modelled as
succeeding). -/
structure HandleResult where
  outcome : HandleOutcome
  actions : List Effect
  persisted : Option Status
deriving DecidableEq

/-- Per-authorization body of the PENDING branch (route.go:479-702):
fetch the authorization, dispatch on its status, select the `http-01`
challenge, materialize the exposer triple via create-or-adopt (parent
ownership checked against the route's UID at all three call sites) and
accept the challenge. Errors carry the actions performed so far. -/
def processAuthz (env : RouteHandleEnv) (route : Route) (order : AcmeOrder)
    (authzUrl : String) : Except (String × List Effect) (List Effect) :=
  match env.getAuthorization authzUrl with
  | .error e => .error (e, [.getAuthorizationCall authzUrl])
  | .ok authz =>
    let base : List Effect := [.getAuthorizationCall authzUrl]
    if authz.status = statusPending then
      match selectChallenge authz.challenges with
      | none => .error ("no viable challenge type found", base)
      | some challenge =>
        if challenge.status = statusPending then
          let tmpName := getTemporaryName env.sha512Name
            (route.name ++ ":" ++ order.uri ++ ":" ++ authzUrl ++ ":" ++ challenge.uri)
          let desiredExposerRoute : KObj :=
            { name := tmpName
              uid := ""
              resourceVersion := ""
              ownerRefs := [⟨route.uid, true⟩]
              labels := [(acmeTemporaryLabelKey, "true")]
              attrs := [("path", env.http01ChallengePath challenge.token),
                        ("to", tmpName)] }
          match createOrAdopt env.exposerRouteKube desiredExposerRoute route.uid
              "exposer Route already exists and isn't owned by route" with
          | .error m => .error (m, base)
          | .ok exposerRoute =>
            let ownerRefToExposerRoute : OwnerRef := ⟨exposerRoute.uid, false⟩
            let desiredExposerRS : KObj :=
              { name := tmpName
                uid := ""
                resourceVersion := ""
                ownerRefs := [ownerRefToExposerRoute]
                labels := [(acmeTemporaryLabelKey, "true")]
                attrs := [("replicas", "2"), ("selector-app", tmpName)] }
            match createOrAdopt env.exposerRSKube desiredExposerRS route.uid
                "pod already exists and isn't owned by route" with
            | .error m => .error (m, base)
            | .ok _ =>
              let desiredExposerService : KObj :=
                { name := tmpName
                  uid := ""
                  resourceVersion := ""
                  ownerRefs := [ownerRefToExposerRoute]
                  labels := [(acmeTemporaryLabelKey, "true")]
                  attrs := [("selector-app", tmpName), ("type", "ClusterIP")] }
              match createOrAdopt env.exposerServiceKube desiredExposerService route.uid
                  "pod already exists and isn't owned by route" with
              | .error m => .error (m, base)
              | .ok _ =>
                match env.accept challenge.uri with
                | .error e => .error (e, base)
                | .ok _ => .ok (base ++ [.acceptCall challenge.uri])
        else if challenge.status = statusProcessing ∨ challenge.status = statusValid
            ∨ challenge.status = statusInvalid then
          .ok base
        else .error ("invalid status for challenge", base)
    else if authz.status = statusValid ∨ authz.status = statusInvalid
        ∨ authz.status = statusDeactivated ∨ authz.status = statusExpired
        ∨ authz.status = statusRevoked then
      .ok base
    else .error ("authz has invalid status", base)

/-- The authorization loop of the PENDING branch, threading the action
trace and stopping at the first error, as the Go `for` loop returns. -/
def processAuthzs (env : RouteHandleEnv) (route : Route) (order : AcmeOrder) :
    List String → List Effect → Except (String × List Effect) (List Effect)
  | [], acc => .ok acc
  | u :: us, acc =>
    match processAuthz env route order u with
    | .error (m, as) => .error (m, acc ++ as)
    | .ok as => processAuthzs env route order us (acc ++ as)

/-- Dispatch on the fetched order's status (route.go:474-779). The
`acme.StatusInvalid` arm references an `authorization` symbol unbound in
the source; the emitted event is modelled with a fixed reason string. -/
def dispatchOrder (env : RouteHandleEnv) (route : Route) (status : Status)
    (order : AcmeOrder) (pre : List Effect) : HandleResult :=
  if order.status = statusPending then
    match processAuthzs env route order order.authzUrls [] with
    | .error (m, as) => ⟨.failure m, pre ++ as, none⟩
    | .ok as => ⟨.success, pre ++ as, some (setStatus route status).2⟩
  else if order.status = statusValid ∨ order.status = statusReady then
    match env.createOrderCert order.finalizeUrl with
    | .error m => ⟨.failure m, pre ++ [.createOrderCertCall order.finalizeUrl], none⟩
    | .ok der =>
      match env.certFromDER der with
      | .error m =>
        ⟨.failure ("can't convert certificate from DER to PEM: " ++ m),
          pre ++ [.createOrderCertCall order.finalizeUrl], none⟩
      | .ok _ =>
        match env.updateRouteResult with
        | .error m =>
          ⟨.failure ("can't update route with new certificates: " ++ m),
            pre ++ [.createOrderCertCall order.finalizeUrl, .updateRouteTLS], none⟩
        | .ok _ =>
          ⟨.success, pre ++ [.createOrderCertCall order.finalizeUrl, .updateRouteTLS],
            some (setStatus route ({ status with provisioningStatus := none })).2⟩
  else if order.status = statusProcessing then
    ⟨.success, pre ++ [.queueAddAfterSeconds 15], some (setStatus route status).2⟩
  else if order.status = statusInvalid then
    ⟨.success, pre ++ [.eventWarning "AcmeFailedAuthorization"],
      some (setStatus route status).2⟩
  else ⟨.failure "invalid new order status", pre, none⟩

/-- Core of `handle` after the route has been loaded and its status
decoded (route.go:419-779): the IDLE renewal-policy gate, the NEW_ORDER
allocation (note: the Go code dereferences `status.ProvisioningStatus`
without allocating it when it is nil, which panics), the stuck-order
timeout, the order fetch with its 404 special case, and the dispatch on
the order status. -/
def handleCore (env : RouteHandleEnv) (now orderTimeout : Int) (route : Route)
    (status : Status) : HandleResult :=
  let idle : Option HandleResult :=
    match status.provisioningStatus with
    | some _ => none
    | none =>
      match needsCertKey env.decodeCert env.normSample now route with
      | .error e => some ⟨.failure e, [], none⟩
      | .ok reason =>
        if reason = "" then some ⟨.success, [], some (setStatus route status).2⟩
        else none
  match idle with
  | some r => r
  | none =>
    match status.provisioningStatus with
    | none =>
      match env.authorizeOrder route.host with
      | .error e => ⟨.failure e, [.authorizeOrderCall route.host], none⟩
      | .ok _ =>
        ⟨.panicked "invalid memory address or nil pointer dereference",
          [.authorizeOrderCall route.host], none⟩
    | some ps =>
      if ps.orderUri = "" then
        match env.authorizeOrder route.host with
        | .error e => ⟨.failure e, [.authorizeOrderCall route.host], none⟩
        | .ok order =>
          let ps' := { ps with startedAt := now, orderUri := order.uri }
          let status' := { status with provisioningStatus := some ps' }
          ⟨.success, [.authorizeOrderCall route.host], some (setStatus route status').2⟩
      else if now > ps.startedAt + orderTimeout then
        ⟨.success, [], some (setStatus route ({ status with provisioningStatus := none })).2⟩
      else
        match env.getOrder ps.orderUri with
        | .error e =>
          match e with
          | .acmeErr code _ =>
            if code = 404 then
              let ps' := { ps with orderUri := "" }
              let status' := { status with provisioningStatus := some ps' }
              ⟨.success, [.getOrderCall ps.orderUri], some (setStatus route status').2⟩
            else ⟨.failure (fetchErrMsg e), [.getOrderCall ps.orderUri], none⟩
          | .otherErr m => ⟨.failure m, [.getOrderCall ps.orderUri], none⟩
        | .ok order =>
          let ps2 := { ps with orderStatus := order.status }
          let status2 := { status with provisioningStatus := some ps2 }
          dispatchOrder env route status2 order [.getOrderCall ps.orderUri]

/-- `handle` (route.go:369): skip absent, deleted or unadmitted routes,
decode the status annotation and run the state machine. The informer
lookup is modelled by the `Option Route` argument and the ACME client is
assumed acquired (its factory is an external collaborator). -/
def handle (env : RouteHandleEnv) (now orderTimeout : Int)
    (route : Option Route) : HandleResult :=
  match route with
  | none => ⟨.success, [], none⟩
  | some routeReadOnly =>
    if routeReadOnly.deletionTimestamp.isSome then ⟨.success, [], none⟩
    else if ¬ routeReadOnly.admitted then ⟨.success, [], none⟩
    else
      match getStatus routeReadOnly with
      | .error e => ⟨.failure ("can't get status: " ++ e), [], none⟩
      | .ok status => handleCore env now orderTimeout routeReadOnly status

/-! ### The account reconciler (`sync`, acme.go:258)

The handler is embedded from the point where the issuer document has been
YAML-decoded and found to be of type `acme` (decoding is an external codec
and earlier guards only skip the key). Crypto is an oracle: `sha512Bytes`
stands for `sha512.Sum512` (64 digest bytes). -/

/-- A dynamically-typed Go value as compared by `reflect.DeepEqual`: the
reconciler compares a `[64]byte` array against a `[]byte` slice, and
`reflect.DeepEqual` distinguishes the two types. -/
inductive GoVal
  | byteArray64 (bytes : List Nat)
  | byteSlice (bytes : List Nat)
deriving DecidableEq

/-- `reflect.DeepEqual` restricted to the values occurring in the account
reconciler: values of distinct Go types are never deeply equal. -/
def reflectDeepEqual : GoVal → GoVal → Bool
  | .byteArray64 a, .byteArray64 b => a = b
  | .byteSlice a, .byteSlice b => a = b
  | _, _ => false

/-- `fmt.Sprint` of a `[]string` value: the elements space-joined inside
brackets. -/
def fmtSprintStrList (l : List String) : String :=
  "[" ++ String.intercalate " " l ++ "]"

/-- `fmt.Sprint` of a `[64]byte` value: the decimal byte values
space-joined inside brackets. -/
def fmtSprintBytes (bs : List Nat) : String :=
  "[" ++ String.intercalate " " (bs.map toString) ++ "]"

/-- Byte view of a Go string (`[]byte(s)`); contact strings are ASCII so
code points stand in for UTF-8 bytes. -/
def stringBytes (s : String) : List Nat :=
  s.data.map Char.toNat

/-- `api.AcmeAccountStatus`: the CA-assigned account coordinates persisted
in the issuer document (the `api` package is not under `src/`; field set
from the spec and the assignments in acme.go:389-393). -/
structure AccountStatus where
  uri : String
  ordersUrl : String
  accountStatus : String
  hash : String
deriving DecidableEq

/-- `api.AcmeAccount`: contact list plus persisted status. -/
structure AcmeAccountCfg where
  contacts : List String
  status : AccountStatus
deriving DecidableEq

/-- `api.AcmeCertIssuer`: the acme-typed issuer configuration. -/
structure AcmeCertIssuer where
  directoryUrl : String
  accountCredentialsSecretName : String
  account : AcmeAccountCfg
deriving DecidableEq

/-- An ACME account object as returned by the client library
(`acme.Account`): URI, contacts, orders URL and status string. -/
structure AcmeAcct where
  uri : String
  contacts : List String
  ordersUrl : String
  accountStatus : String
deriving DecidableEq

/-- Outcome of looking up the credentials secret in the lister. -/
inductive SecretLookupResult
  | found (secretName : String)
  | notFound
  | lookupFailed (msg : String)

/-- Oracle environment for one account-reconciler invocation. -/
structure AccountSyncEnv where
  sha512Bytes : String → List Nat
  secretLookup : String → SecretLookupResult
  decodeKey : String → Except String Unit
  registerResult : Except String AcmeAcct
  createSecretResult : Except String Unit
  updateRegResult : Except String AcmeAcct
  getRegResult : Except String AcmeAcct

/-- CA RPCs the account reconciler can issue. -/
inductive AccountRPC
  | register
  | updateReg
  | getReg
deriving DecidableEq

/-- Result of one account-reconciler invocation: the error returned (if
any), the CA RPCs issued in order, and the issuer document written back
into the config object (`none` when the handler returned early). -/
structure AccountSyncResult where
  err : Option String
  rpcs : List AccountRPC
  finalIssuer : Option AcmeCertIssuer
deriving DecidableEq

/-- `hashAccount` (acme.go:415): SHA-512 over the stringified contact
list, a `[64]byte` value. -/
def hashAccount (sha512Bytes : String → List Nat) (account : AcmeAccountCfg) : GoVal :=
  .byteArray64 (sha512Bytes (fmtSprintStrList account.contacts))

/-- Defaulting of the credentials secret name (acme.go:318-320): an empty
name falls back to the config object's own name. -/
def defaultSecretName (issuer : AcmeCertIssuer) (cmName : String) : AcmeCertIssuer :=
  if issuer.accountCredentialsSecretName = "" then
    { issuer with accountCredentialsSecretName := cmName }
  else issuer

/-- The status merge (acme.go:389-393): overwrite URI, contacts, orders
URL and account status from the in-memory `account` value, then store the
rendering of the recomputed contact hash. -/
def accountWriteBack (env : AccountSyncEnv) (issuer : AcmeCertIssuer)
    (acct : AcmeAcct) : AcmeCertIssuer :=
  let account1 := { issuer.account with
    contacts := acct.contacts
    status := { issuer.account.status with uri := acct.uri } }
  let account2 := { account1 with status := { account1.status with
    ordersUrl := acct.ordersUrl
    accountStatus := acct.accountStatus } }
  let account3 := { account2 with status := { account2.status with
    hash := fmtSprintBytes (env.sha512Bytes (fmtSprintStrList account2.contacts)) } }
  { issuer with account := account3 }

/-- `sync` (acme.go:258) from the secret lookup onward: register a fresh
account when the secret is absent; otherwise decode the key and choose
between `UpdateReg`, `GetReg` and no RPC, then merge the account into the
issuer status and write the document back. -/
def syncAccount (env : AccountSyncEnv) (issuer0 : AcmeCertIssuer)
    (cmName : String) : AccountSyncResult :=
  let issuer := defaultSecretName issuer0 cmName
  let account0 : AcmeAcct :=
    { uri := "", contacts := issuer.account.contacts, ordersUrl := "", accountStatus := "" }
  match env.secretLookup issuer.accountCredentialsSecretName with
  | .lookupFailed m => ⟨some m, [], none⟩
  | .notFound =>
    match env.registerResult with
    | .error m => ⟨some m, [.register], none⟩
    | .ok acct =>
      match env.createSecretResult with
      | .error m => ⟨some m, [.register], none⟩
      | .ok _ => ⟨none, [.register], some (accountWriteBack env issuer acct)⟩
  | .found sName =>
    match env.decodeKey sName with
    | .error m => ⟨some m, [], none⟩
    | .ok _ =>
      let accountHash := hashAccount env.sha512Bytes issuer.account
      if reflectDeepEqual accountHash (.byteSlice (stringBytes issuer.account.status.hash)) then
        match env.updateRegResult with
        | .error m => ⟨some m, [.updateReg], none⟩
        | .ok acct => ⟨none, [.updateReg], some (accountWriteBack env issuer acct)⟩
      else if issuer.account.status.uri = "" then
        match env.getRegResult with
        | .error m => ⟨some m, [.getReg], none⟩
        | .ok acct => ⟨none, [.getReg], some (accountWriteBack env issuer acct)⟩
      else ⟨none, [], some (accountWriteBack env issuer account0)⟩

/-! ### Auxiliary predicate and concrete fixtures

`nonDigitHead` supports the number-parser lemmas; the fixtures below are
concrete routes, statuses and oracle environments used by closed
counterexample and witness theorems. -/

/-- The input does not begin with a decimal digit (so a digit run parsed
before it stops exactly there). -/
def nonDigitHead : List Char → Prop
  | [] => True
  | c :: _ => isDigitChar c = false

/-- Object-store oracle where creation always succeeds. -/
def kubeNoop : KubeKindEnv :=
  { create := fun o => .created o
    get := fun _ => .error "not found"
    update := fun o => .ok o }

/-- Baseline handler environment: every ACME call errors unless
overridden, certificates never decode, the normal draw is zero. -/
def envBase : RouteHandleEnv :=
  { authorizeOrder := fun _ => .error "unreachable"
    getOrder := fun _ => .error (.otherErr "unreachable")
    getAuthorization := fun _ => .error "unreachable"
    accept := fun _ => .ok ()
    http01ChallengePath := fun tok => "/.well-known/acme-challenge/" ++ tok
    createOrderCert := fun _ => .ok []
    certFromDER := fun _ => .ok ⟨"K", "C"⟩
    updateRouteResult := .ok ()
    exposerRouteKube := kubeNoop
    exposerRSKube := kubeNoop
    exposerServiceKube := kubeNoop
    sha512Name := fun _ => "h"
    decodeCert := fun _ _ => none
    normSample := fun _ => 0 }

/-- Admitted route with no TLS material and a nil annotations map: the
first-time provisioning input of spec scenario 1. -/
def route1 : Route :=
  ⟨"web", "acme", "www.example.com", "uid-1", 1, none, true, none, none⟩

/-- A freshly allocated pending order. -/
def order1 : AcmeOrder :=
  ⟨"https://ca/order/1", "pending", [], "https://ca/finalize/1"⟩

/-- Environment where order authorization succeeds with `order1`. -/
def env1 : RouteHandleEnv :=
  { envBase with authorizeOrder := fun _ => .ok order1 }

/-- Persisted status with an active order, for the order-fetch claims. -/
def status7 : Status := ⟨some ⟨"https://ca/order/7", 100, ""⟩, 0⟩

/-- Admitted route carrying `status7` in its status annotation. -/
def route7 : Route :=
  ⟨"web7", "acme", "w7.example.com", "uid-7", 3, none, true,
    some [(acmeStatusAnnKey, marshalStatus status7)], none⟩

/-- Environment where fetching any order yields an ACME 404 error. -/
def env7 : RouteHandleEnv :=
  { envBase with getOrder := fun _ => .error (.acmeErr 404 "order not found") }

/-- A certificate valid from 0 to 30 (nanoseconds) for the example host. -/
def cert30 : Certificate := ⟨0, 30, ["www.example.com"]⟩

/-- Admitted route carrying nonempty TLS material. -/
def route5 : Route :=
  ⟨"web5", "acme", "www.example.com", "uid-5", 1, none, true, none,
    some ⟨"KEY", "CRT"⟩⟩

/-- Certificate decoder oracle returning `cert30` for any PEM input. -/
def decode30 : String → String → Option Certificate := fun _ _ => some cert30

/-- Two distinct pending `http-01` challenges. -/
def chalA : AcmeChallenge := ⟨"http-01", "https://ca/chal/1", "tok1", "pending"⟩

/-- Second pending `http-01` challenge, differing from `chalA`. -/
def chalB : AcmeChallenge := ⟨"http-01", "https://ca/chal/2", "tok2", "pending"⟩

/-- Route whose annotations map is present but lacks the status key. -/
def route4 : Route :=
  ⟨"web4", "acme", "w4.example.com", "uid-4", 0, none, true,
    some [("foo", "bar")], none⟩

/-- Route with a nil annotations map. -/
def route4nil : Route :=
  ⟨"web4n", "acme", "w4.example.com", "uid-4n", 0, none, true, none, none⟩

/-- A pre-existing replica-set controller-owned by the responder route
(UID `exposer-route-uid`), not by the parent route. -/
def existing6 : KObj :=
  ⟨"acme-exposer-h", "rs-uid", "5", [⟨"exposer-route-uid", true⟩], [], []⟩

/-- Object-store oracle where creation reports already-exists and get
returns `existing6`. -/
def kube6 : KubeKindEnv :=
  { create := fun _ => .alreadyExists
    get := fun _ => .ok existing6
    update := fun o => .ok o }

/-- Desired exposer replica-set named like `existing6`. -/
def desired6 : KObj :=
  ⟨"acme-exposer-h", "", "", [⟨"exposer-route-uid", false⟩], [], []⟩

/-- Account environment: constant SHA-512 oracle, credentials secret
present and its key decoding. -/
def envAcct : AccountSyncEnv :=
  { sha512Bytes := fun _ => List.replicate 64 7
    secretLookup := fun _ => .found "creds"
    decodeKey := fun _ => .ok ()
    registerResult := .error "unreachable"
    createSecretResult := .ok ()
    updateRegResult := .ok ⟨"https://ca/acct/u", ["mailto:u@example.com"], "https://ca/orders/u", "valid"⟩
    getRegResult := .ok ⟨"https://ca/acct/g", ["mailto:g@example.com"], "https://ca/orders/g", "valid"⟩ }

/-- Issuer document whose stored hash is exactly the rendering of the
SHA-512 of its current contact list, with a nonempty account URI. -/
def issuerA : AcmeCertIssuer :=
  ⟨"https://ca/dir", "creds",
    ⟨["mailto:a@example.com"],
      ⟨"https://ca/acct/1", "https://ca/orders/1", "valid",
        fmtSprintBytes (List.replicate 64 7)⟩⟩⟩

/-- Issuer document with an empty stored account URI. -/
def issuerB : AcmeCertIssuer :=
  ⟨"https://ca/dir", "creds",
    ⟨["mailto:b@example.com"], ⟨"", "", "", "stale-hash"⟩⟩⟩

/-- Decidable equality for `Except` results, used to evaluate concrete
handler outcomes. -/
instance {α β : Type} [DecidableEq α] [DecidableEq β] : DecidableEq (Except α β) :=
  fun a b =>
    match a, b with
    | .ok x, .ok y =>
      if h : x = y then .isTrue (by rw [h]) else .isFalse (by simp [h])
    | .error x, .error y =>
      if h : x = y then .isTrue (by rw [h]) else .isFalse (by simp [h])
    | .ok _, .error _ => .isFalse (by simp)
    | .error _, .ok _ => .isFalse (by simp)

/-! ### Codec lemmas -/

/-- Consuming a pattern from input that starts with it succeeds and leaves
the rest. -/
theorem expectChars_append (pat rest : List Char) :
    expectChars pat (pat ++ rest) = some rest := by
  induction pat with
  | nil => rfl
  | cons p ps ih => simp [expectChars, ih]

/-- Parsing an escaped string body followed by a closing quote recovers
the body. -/
theorem parseQuotedAux_escChars (u rest : List Char) :
    parseQuotedAux (escChars u ++ '"' :: rest) = some (u, rest) := by
  induction u with
  | nil =>
    show parseQuotedAux ('"' :: rest) = some ([], rest)
    unfold parseQuotedAux
    simp
  | cons c cs ih =>
    unfold escChars
    by_cases h : c = '"' ∨ c = '\\'
    · rw [if_pos h, List.cons_append, List.cons_append]
      unfold parseQuotedAux
      simp [h, ih]
    · rw [if_neg h, List.cons_append]
      push_neg at h
      unfold parseQuotedAux
      simp [h.1, h.2, ih]

/-- Digit characters decode back to their digit value. -/
theorem charDigit_digitChar : ∀ d, d < 10 → charDigit (Nat.digitChar d) = d := by
  decide

/-- Digit characters pass the digit test. -/
theorem isDigitChar_digitChar : ∀ d, d < 10 → isDigitChar (Nat.digitChar d) = true := by
  decide

/-- Every character produced by the fuel-based digit printer is a decimal
digit. -/
theorem natCharsAux_digits :
    ∀ fuel n, ∀ c ∈ natCharsAux fuel n, isDigitChar c = true := by
  intro fuel
  induction fuel with
  | zero => intro n c hc; simp [natCharsAux] at hc
  | succ f ih =>
    intro n c hc
    by_cases hn : n = 0
    · simp [natCharsAux, hn] at hc
    · simp [natCharsAux, hn] at hc
      rcases hc with hc | hc
      · exact ih (n / 10) c hc
      · subst hc
        exact isDigitChar_digitChar (n % 10) (Nat.mod_lt _ (by norm_num))

/-- Shifting lemma for the digit-value fold. -/
theorem digitsVal_foldl_shift (l : List Char) (a : Nat) :
    l.foldl (fun x c => x * 10 + charDigit c) a =
      a * 10 ^ l.length + l.foldl (fun x c => x * 10 + charDigit c) 0 := by
  induction l generalizing a with
  | nil => simp
  | cons c cs ih =>
    simp only [List.foldl_cons, List.length_cons]
    rw [ih (a * 10 + charDigit c), ih (0 * 10 + charDigit c)]
    ring

/-- The printed digits of `n` evaluate back to `n` (with enough fuel). -/
theorem digitsVal_natCharsAux : ∀ fuel n, n ≤ fuel →
    digitsVal (natCharsAux fuel n) = n := by
  intro fuel
  induction fuel with
  | zero => intro n hn; interval_cases n; rfl
  | succ f ih =>
    intro n hn
    by_cases hz : n = 0
    · simp [natCharsAux, hz, digitsVal]
    · have hdiv : n / 10 ≤ f := by
        have h1 : n / 10 < n := Nat.div_lt_self (Nat.pos_of_ne_zero hz) (by norm_num)
        omega
      simp only [natCharsAux, hz, if_false]
      unfold digitsVal
      rw [List.foldl_append]
      have hrec := ih (n / 10) hdiv
      unfold digitsVal at hrec
      rw [hrec]
      simp [charDigit_digitChar (n % 10) (Nat.mod_lt _ (by norm_num))]
      omega

/-- The decimal notation of `n` is nonempty. -/
theorem natLit_ne_nil (n : Nat) : natLit n ≠ [] := by
  unfold natLit
  by_cases hz : n = 0
  · simp [hz]
  · simp only [hz, if_false]
    cases n with
    | zero => exact absurd rfl hz
    | succ m =>
      simp [natCharsAux, hz]

/-- Every character of the decimal notation is a digit. -/
theorem natLit_digits (n : Nat) : ∀ c ∈ natLit n, isDigitChar c = true := by
  unfold natLit
  by_cases hz : n = 0
  · simp [hz]; decide
  · simp only [hz, if_false]
    exact natCharsAux_digits (n + 1) n

/-- The decimal notation of `n` evaluates back to `n`. -/
theorem digitsVal_natLit (n : Nat) : digitsVal (natLit n) = n := by
  unfold natLit
  by_cases hz : n = 0
  · simp [hz, digitsVal, charDigit]
  · simp only [hz, if_false]
    exact digitsVal_natCharsAux (n + 1) n (Nat.le_succ n)

/-- A digit run followed by a non-digit splits exactly at the boundary. -/
theorem spanDigits_append (ds rest : List Char)
    (hds : ∀ c ∈ ds, isDigitChar c = true) (hrest : nonDigitHead rest) :
    spanDigits (ds ++ rest) = (ds, rest) := by
  induction ds with
  | nil =>
    cases rest with
    | nil => rfl
    | cons c cs =>
      simp only [nonDigitHead] at hrest
      simp [spanDigits, hrest]
  | cons c cs ih =>
    have hc : isDigitChar c = true := hds c (List.mem_cons_self c cs)
    have ihcs := ih (fun d hd => hds d (List.mem_cons_of_mem c hd))
    simp [spanDigits, hc, ihcs]

/-- Parsing a printed natural followed by a non-digit recovers the
value. -/
theorem parseNatChars_append (n : Nat) (rest : List Char)
    (hrest : nonDigitHead rest) :
    parseNatChars (natLit n ++ rest) = some (n, rest) := by
  unfold parseNatChars
  rw [spanDigits_append (natLit n) rest (natLit_digits n) hrest]
  simp [natLit_ne_nil n, digitsVal_natLit n]

/-- Parsing a printed integer followed by a non-digit recovers the
value. -/
theorem parseIntChars_append (i : Int) (rest : List Char)
    (hrest : nonDigitHead rest) :
    parseIntChars (intLitChars i ++ rest) = some (i, rest) := by
  unfold intLitChars
  by_cases hneg : i < 0
  · simp only [hneg, if_true, List.cons_append]
    have : parseIntChars ('-' :: (natLit i.natAbs ++ rest)) =
        match parseNatChars (natLit i.natAbs ++ rest) with
        | some (n, r) => some (-(n : Int), r)
        | none => none := by
      simp [parseIntChars]
    rw [this, parseNatChars_append i.natAbs rest hrest]
    have : ((i.natAbs : Int)) = -i := by
      omega
    simp [this]
  · simp only [hneg, if_false]
    obtain ⟨c, cs, hcons⟩ : ∃ c cs, natLit i.toNat = c :: cs := by
      cases h : natLit i.toNat with
      | nil => exact absurd h (natLit_ne_nil _)
      | cons c cs => exact ⟨c, cs, rfl⟩
    have hcdig : isDigitChar c = true := by
      have := natLit_digits i.toNat c
      rw [hcons] at this
      exact this (List.mem_cons_self c cs)
    have hcne : c ≠ '-' := by
      intro hc
      rw [hc] at hcdig
      exact absurd hcdig (by decide)
    rw [hcons, List.cons_append]
    have : parseIntChars (c :: (cs ++ rest)) =
        match parseNatChars (c :: (cs ++ rest)) with
        | some (n, r) => some ((n : Int), r)
        | none => none := by
      simp [parseIntChars, hcne]
    rw [this]
    have hfull : parseNatChars (natLit i.toNat ++ rest) = some (i.toNat, rest) :=
      parseNatChars_append i.toNat rest hrest
    rw [hcons, List.cons_append] at hfull
    rw [hfull]
    have : ((i.toNat : Int)) = i := Int.toNat_of_nonneg (by omega)
    simp [this]

/-- The field separator before `orderStatus` does not start with a
digit. -/
theorem nonDigitHead_psPatC (x : List Char) : nonDigitHead (psPatC ++ x) := by
  show isDigitChar ',' = false
  decide

/-- The closing brace does not start with a digit. -/
theorem nonDigitHead_stPatD : nonDigitHead stPatD := by
  show isDigitChar '\x7d' = false
  decide

/-- A pattern consumed against exactly itself leaves nothing. -/
theorem expectChars_self (pat : List Char) : expectChars pat pat = some [] := by
  have h := expectChars_append pat []
  simpa using h

/-- The `null` literal never matches a serialized provisioning-status
object (which opens with a brace). -/
theorem expectChars_null_marshalPS (ps : ProvisioningStatus) (r : List Char) :
    expectChars nullPat (marshalPSChars ps ++ r) = none := by
  have h1 : nullPat = 'n' :: "ull".data := rfl
  have h2 : marshalPSChars ps ++ r =
      '\x7b' :: ("\"orderUri\":\"".data ++ (escChars ps.orderUri.data ++ ('"' ::
        (psPatB ++ (intLitChars ps.startedAt ++
          (psPatC ++ (escChars ps.orderStatus.data ++ ('"' :: (psPatD ++ r))))))))) := by
    simp [marshalPSChars, psPatA]
  rw [h1, h2]
  simp [expectChars]

/-- Parsing a printed integer before the `orderStatus` separator. -/
theorem parseIntChars_psPatC (i : Int) (x : List Char) :
    parseIntChars (intLitChars i ++ (psPatC ++ x)) = some (i, psPatC ++ x) :=
  parseIntChars_append i _ (nonDigitHead_psPatC x)

/-- Parsing a printed integer before the closing brace. -/
theorem parseIntChars_stPatD (i : Int) :
    parseIntChars (intLitChars i ++ stPatD) = some (i, stPatD) :=
  parseIntChars_append i _ nonDigitHead_stPatD

/-- Decoding a serialized provisioning-status object recovers it and
leaves the trailing input. -/
theorem unmarshalPS_marshalPS (ps : ProvisioningStatus) (r : List Char) :
    unmarshalPSChars (marshalPSChars ps ++ r) = some (ps, r) := by
  obtain ⟨⟨ud⟩, t, ⟨sd⟩⟩ := ps
  unfold marshalPSChars unmarshalPSChars
  simp only [List.append_assoc, List.cons_append, expectChars_append,
    parseQuotedAux_escChars, parseIntChars_psPatC]

/-- Decoding the serialized status tail recovers the observed generation
and closes the object. -/
theorem unmarshalStatusTail_append (ps : Option ProvisioningStatus) (g : Int) :
    unmarshalStatusTail ps (stPatB ++ (intLitChars g ++ stPatD)) = some (⟨ps, g⟩, []) := by
  unfold unmarshalStatusTail
  simp only [expectChars_append, parseIntChars_stPatD, expectChars_self]

/-- Round trip of the status codec: decoding a canonical encoding yields
the original status with no trailing input. -/
theorem unmarshalStatus_marshalStatus (s : Status) :
    unmarshalStatus (marshalStatus s) = some s := by
  obtain ⟨psOpt, g⟩ := s
  have hdata : (marshalStatus ⟨psOpt, g⟩).data = marshalStatusChars ⟨psOpt, g⟩ := rfl
  unfold unmarshalStatus
  rw [hdata]
  cases psOpt with
  | none =>
    unfold marshalStatusChars unmarshalStatusChars
    simp only [expectChars_append, unmarshalStatusTail_append]
  | some ps =>
    unfold marshalStatusChars unmarshalStatusChars
    simp only [expectChars_append, expectChars_null_marshalPS,
      unmarshalPS_marshalPS, unmarshalStatusTail_append]

/-! ### Claims about the status codec (C9, C4) -/

/-- Reading back a key just upserted returns the upserted value. -/
theorem lookupAnn_upsertAnn (m : List (String × String)) (k v : String) :
    lookupAnn (upsertAnn m k v) k = v := by
  induction m with
  | nil => simp [upsertAnn, lookupAnn, List.lookup]
  | cons p rest ih =>
    obtain ⟨k', v'⟩ := p
    by_cases h : k' = k
    · simp [upsertAnn, h, lookupAnn, List.lookup]
    · have h2 : (k == k') = false :=
        beq_eq_false_iff_ne.mpr (fun he => h he.symm)
      simp only [upsertAnn, if_neg h, lookupAnn, List.lookup, h2]
      simpa [lookupAnn] using ih

/-- Decoding the empty annotation value fails, as stdlib `json.Unmarshal`
fails on empty input. -/
theorem unmarshalStatus_empty : unmarshalStatus "" = none := rfl

/-- C9: for every status value `x` and route, writing `x` with
`setStatus` and reading it back with `getStatus` yields `x` with only the
`observedGeneration` field changed (to the route's generation); all other
fields round-trip unchanged. -/
theorem c9_status_roundtrip (route : Route) (x : Status) :
    getStatus (setStatus route x).1 =
      .ok { x with observedGeneration := route.generation } := by
  unfold setStatus setMetaDataAnn getStatus
  simp only [lookupAnn_upsertAnn, unmarshalStatus_marshalStatus]

/-- C4 counterexample: on a route whose annotations map is present (one
unrelated annotation) but whose status annotation is absent, `getStatus`
returns an error rather than the zero status, refuting the claim that an
absent status annotation always yields the zero value. -/
theorem c4_counterexample :
    route4.annotations = some [("foo", "bar")] ∧
      lookupAnn [("foo", "bar")] acmeStatusAnnKey = "" ∧
      getStatus route4 ≠ .ok zeroStatus ∧
      getStatus route4 = .error "can't decode status annotation" := by
  decide

/-- C4 amended: `getStatus` returns the zero status when the annotations
map is entirely absent (nil); when the map is present and the status
annotation is absent, the empty string is handed to the JSON decoder,
which fails, so `getStatus` returns an error. -/
theorem c4_amended (r : Route) (m : List (String × String)) :
    (r.annotations = none → getStatus r = .ok zeroStatus) ∧
    (r.annotations = some m → lookupAnn m acmeStatusAnnKey = "" →
      getStatus r = .error "can't decode status annotation") := by
  constructor
  · intro h
    simp [getStatus, h]
  · intro h hl
    simp [getStatus, h, hl, unmarshalStatus_empty]

/-- C4 witness: the amended claim at the two concrete fixtures. -/
theorem c4_witness :
    getStatus route4nil = .ok zeroStatus ∧
      getStatus route4 = .error "can't decode status annotation" :=
  ⟨(c4_amended route4nil []).1 rfl,
    (c4_amended route4 [("foo", "bar")]).2 rfl (by decide)⟩

/-! ### Claims about the renewal policy (C5, C8) -/

/-- Truncated division by 3 is at most truncated division by 2 on
nonnegative integers. -/
theorem tdiv3_le_tdiv2 (a : Int) (ha : 0 ≤ a) : a.tdiv 3 ≤ a.tdiv 2 := by
  lift a to ℕ using ha
  have h3 := Int.ofNat_tdiv a 3
  have h2 := Int.ofNat_tdiv a 2
  have hle : a / 3 ≤ a / 2 := Nat.div_le_div_left (by norm_num) (by norm_num)
  have c3 : ((3 : ℕ) : Int) = 3 := by norm_num
  have c2 : ((2 : ℕ) : Int) = 2 := by norm_num
  rw [c3] at h3
  rw [c2] at h2
  rw [← h3, ← h2]
  exact_mod_cast hle

/-- C5 counterexample: the fixture certificate decodes, matches the
hostname and is unexpired at `t = 25`, satisfying every hypothesis of the
claim, yet `needsCertKey` returns the reason "In renewal period" rather
than no reason (the remaining lifetime is inside the renewal band). -/
theorem c5_counterexample :
    route5.tls = some ⟨"KEY", "CRT"⟩ ∧
      decode30 "KEY" "CRT" = some cert30 ∧
      verifyHostname cert30 route5.host = true ∧
      certIsValid cert30 25 = true ∧
      needsCertKey decode30 (fun _ => 0) 25 route5 ≠ .ok "" ∧
      needsCertKey decode30 (fun _ => 0) 25 route5 = .ok "In renewal period" := by
  decide

/-- C5 amended: for a route with nonempty TLS material whose certificate
decodes, matches the hostname and is unexpired at `t`, `needsCertKey`
returns no reason provided additionally that the remaining lifetime
exceeds half of the total lifetime (outside both renewal bands); inside
the bands a reason can be returned even for an unexpired matching
certificate. -/
theorem c5_amended (decodeCert : String → String → Option Certificate)
    (normSample : Int → ℚ) (t : Int) (route : Route) (tls : TLSConfig)
    (cert : Certificate)
    (htls : route.tls = some tls) (hk : tls.key ≠ "") (hc : tls.certificate ≠ "")
    (hdec : decodeCert tls.key tls.certificate = some cert)
    (hhost : verifyHostname cert route.host = true)
    (hvalid : certIsValid cert t = true)
    (hband : (cert.notAfter - cert.notBefore).tdiv 2 < cert.notAfter - t) :
    needsCertKey decodeCert normSample t route = .ok "" := by
  have hlife : (0 : Int) ≤ cert.notAfter - cert.notBefore := by
    simp only [certIsValid, Bool.and_eq_true, decide_eq_true_eq] at hvalid
    omega
  have hb3 : ¬ (cert.notAfter - t ≤ (cert.notAfter - cert.notBefore).tdiv 3) := by
    have := tdiv3_le_tdiv2 (cert.notAfter - cert.notBefore) hlife
    omega
  have hb2 : ¬ (cert.notAfter - t ≤ (cert.notAfter - cert.notBefore).tdiv 2) := by
    omega
  unfold needsCertKey
  rw [htls]
  dsimp only
  have hkc : ¬ (tls.key = "" ∨ tls.certificate = "") := by
    simp [hk, hc]
  rw [if_neg hkc, hdec]
  dsimp only
  rw [if_neg (by simp [hhost]), if_neg (by simp [hvalid])]
  rw [if_neg hb3, if_neg hb2]

/-- C5 witness: the amended claim evaluated at `t = 5`, where 25 of the 30
lifetime units remain. -/
theorem c5_witness : needsCertKey decode30 (fun _ => 0) 5 route5 = .ok "" :=
  c5_amended decode30 (fun _ => 0) 5 route5 ⟨"KEY", "CRT"⟩ cert30 rfl
    (by decide) (by decide) rfl (by decide) (by decide) (by decide)

/-- C8: for every evaluation time `t`, every normal-draw oracle and every
route whose certificate decodes, matches the hostname and is unexpired at
`t`, if the remaining lifetime is at most a third of the total lifetime
then `needsCertKey` deterministically returns the reason "In renewal
period" — the random draw is never consulted in this band. -/
theorem c8_renewal_band_deterministic (decodeCert : String → String → Option Certificate)
    (normSample : Int → ℚ) (t : Int) (route : Route) (tls : TLSConfig)
    (cert : Certificate)
    (htls : route.tls = some tls) (hk : tls.key ≠ "") (hc : tls.certificate ≠ "")
    (hdec : decodeCert tls.key tls.certificate = some cert)
    (hhost : verifyHostname cert route.host = true)
    (hvalid : certIsValid cert t = true)
    (hband : cert.notAfter - t ≤ (cert.notAfter - cert.notBefore).tdiv 3) :
    needsCertKey decodeCert normSample t route = .ok "In renewal period" := by
  unfold needsCertKey
  rw [htls]
  dsimp only
  have hkc : ¬ (tls.key = "" ∨ tls.certificate = "") := by
    simp [hk, hc]
  rw [if_neg hkc, hdec]
  dsimp only
  rw [if_neg (by simp [hhost]), if_neg (by simp [hvalid])]
  rw [if_pos hband]

/-- C8 witness: the renewal band at `t = 25` with 5 of 30 lifetime units
remaining, under an arbitrary nonzero draw oracle. -/
theorem c8_witness :
    needsCertKey decode30 (fun _ => 3) 25 route5 = .ok "In renewal period" :=
  c8_renewal_band_deterministic decode30 (fun _ => 3) 25 route5 ⟨"KEY", "CRT"⟩
    cert30 rfl (by decide) (by decide) rfl (by decide) (by decide) (by decide)

/-! ### Claims about challenge selection (C3) -/

/-- The selection fold keeps the last matching element: it equals the
first `http-01` challenge of the reversed list, falling back to the
accumulator. -/
theorem selectChallenge_foldl_aux (cs : List AcmeChallenge) (acc : Option AcmeChallenge) :
    cs.foldl (fun a c => if c.typ = "http-01" then some c else a) acc =
      match cs.reverse.find? (fun c => decide (c.typ = "http-01")) with
      | some x => some x
      | none => acc := by
  induction cs generalizing acc with
  | nil => simp
  | cons c rest ih =>
    simp only [List.foldl_cons, List.reverse_cons]
    rw [ih, List.find?_append]
    cases hfr : rest.reverse.find? (fun c => decide (c.typ = "http-01")) with
    | some x => simp [Option.or]
    | none =>
      by_cases h : c.typ = "http-01" <;> simp [List.find?, h, Option.or]

/-- C3 counterexample: with two distinct pending `http-01` challenges the
handler's loop selects the second (last) one, not the first as the claim
and spec state. -/
theorem c3_counterexample :
    firstHttp01 [chalA, chalB] = some chalA ∧
      selectChallenge [chalA, chalB] = some chalB ∧
      chalA ≠ chalB ∧
      selectChallenge [chalA, chalB] ≠ firstHttp01 [chalA, chalB] := by
  decide

/-- C3 amended: the loop has no break, so the handler deterministically
selects the last challenge with type `http-01` (the first match of the
reversed challenge list); in particular the selection is still
deterministic, but it is the last match, not the first. -/
theorem c3_amended (cs : List AcmeChallenge) :
    selectChallenge cs = cs.reverse.find? (fun c => decide (c.typ = "http-01")) := by
  unfold selectChallenge
  rw [selectChallenge_foldl_aux]
  cases cs.reverse.find? (fun c => decide (c.typ = "http-01")) <;> rfl

/-! ### Claims about the exposer create-or-adopt protocol (C6) -/

/-- C6 counterexample: a pre-existing replica-set that IS controller-owned
by the responder route (UID `exposer-route-uid`) still fails the adopt
check with a collision error, because the code verifies controller
ownership against the parent route's UID, not the responder route's. -/
theorem c6_counterexample :
    isControlledBy existing6 "exposer-route-uid" = true ∧
      createOrAdopt kube6 desired6 "parent-route-uid" "collision" = .error "collision" := by
  decide

/-- C6 amended: in the adopt path (create reported already-exists, get
succeeded) the handler checks that the existing object is controller-owned
by the PARENT route (the UID passed at all three call sites), failing the
key with the collision error exactly when that check fails, and otherwise
refreshing the resource version and updating. -/
theorem c6_amended (k : KubeKindEnv) (desired : KObj) (parentUid msg : String)
    (existing : KObj)
    (hcr : k.create desired = .alreadyExists)
    (hget : k.get desired.name = .ok existing) :
    (isControlledBy existing parentUid = false →
      createOrAdopt k desired parentUid msg = .error msg) ∧
    (isControlledBy existing parentUid = true →
      createOrAdopt k desired parentUid msg =
        k.update ({ desired with resourceVersion := existing.resourceVersion })) := by
  constructor
  · intro h
    unfold createOrAdopt
    rw [hcr, hget]
    simp [h]
  · intro h
    unfold createOrAdopt
    rw [hcr, hget]
    simp [h]

/-- C6 witness: the amended claim at the concrete fixtures, exercising
both the collision branch and the adopt-update branch. -/
theorem c6_witness :
    createOrAdopt kube6 desired6 "parent-route-uid" "collision" = .error "collision" ∧
      createOrAdopt kube6 desired6 "exposer-route-uid" "collision" =
        kube6.update ({ desired6 with resourceVersion := existing6.resourceVersion }) :=
  ⟨(c6_amended kube6 desired6 "parent-route-uid" "collision" existing6 rfl rfl).1 (by decide),
    (c6_amended kube6 desired6 "exposer-route-uid" "collision" existing6 rfl rfl).2 (by decide)⟩

/-! ### Claims about the handler state machine (C1, C7) -/

/-- C1: on an admitted first-time route (no status annotation, no TLS,
renewal reason nonempty) with a successful `AuthorizeOrder`, the handler
does NOT complete and persist the new order: `status.ProvisioningStatus`
is still nil when route.go:445 assigns through it, so the invocation
panics with a nil-pointer dereference right after the order was created at
the CA, and nothing is persisted. -/
theorem c1_nil_provisioning_panics :
    handle env1 1000 300 (some route1) =
      ⟨.panicked "invalid memory address or nil pointer dereference",
        [.authorizeOrderCall "www.example.com"], none⟩ := by
  decide

/-- C7: whenever the route is live and admitted, its decoded status holds
an active order URI and the order is not stuck, a failing order fetch is
special-cased exactly on an ACME error with HTTP status 404: then and only
then the handler clears `order_uri`, persists the status and succeeds;
every other fetch error (ACME with another code, or a non-ACME error) is
returned as the handler's error with nothing persisted. -/
theorem c7_order_fetch_404_iff (env : RouteHandleEnv) (now orderTimeout : Int)
    (route : Route) (s : Status) (ps : ProvisioningStatus) (e : FetchErr)
    (hdel : route.deletionTimestamp = none)
    (hadm : route.admitted = true)
    (hgs : getStatus route = .ok s)
    (hps : s.provisioningStatus = some ps)
    (huri : ps.orderUri ≠ "")
    (hstuck : ¬ now > ps.startedAt + orderTimeout)
    (hget : env.getOrder ps.orderUri = .error e) :
    (∀ m, e = .acmeErr 404 m →
      handle env now orderTimeout (some route) =
        ⟨.success, [.getOrderCall ps.orderUri],
          some ⟨some ⟨"", ps.startedAt, ps.orderStatus⟩, route.generation⟩⟩) ∧
    ((∀ m, e ≠ .acmeErr 404 m) →
      handle env now orderTimeout (some route) =
        ⟨.failure (fetchErrMsg e), [.getOrderCall ps.orderUri], none⟩) := by
  have hstep : handle env now orderTimeout (some route) =
      handleCore env now orderTimeout route s := by
    unfold handle
    dsimp only
    rw [hdel, hgs]
    simp [hadm]
  simp only [hstep]
  constructor
  · intro m he
    subst he
    unfold handleCore
    rw [hps]
    dsimp only
    rw [if_neg huri, if_neg hstuck, hget]
    dsimp only
    simp [setStatus]
  · intro hne
    unfold handleCore
    rw [hps]
    dsimp only
    rw [if_neg huri, if_neg hstuck, hget]
    cases e with
    | acmeErr code m =>
      have hc : code ≠ 404 := fun h => hne m (by rw [h])
      simp [hc, fetchErrMsg]
    | otherErr m => rfl

/-- C7 witness: on the concrete route carrying `status7`, a 404 from the
CA makes the handler clear the order URI and persist, and succeed. -/
theorem c7_witness :
    handle env7 150 1000 (some route7) =
      ⟨.success, [.getOrderCall "https://ca/order/7"],
        some ⟨some ⟨"", 100, ""⟩, 3⟩⟩ :=
  (c7_order_fetch_404_iff env7 150 1000 route7 status7
      ⟨"https://ca/order/7", 100, ""⟩ (.acmeErr 404 "order not found")
      rfl rfl (by decide) rfl (by decide) (by decide) rfl).1
    "order not found" rfl

/-! ### Claims about the account reconciler (C2, C10) -/

/-- C2 counterexample: on an issuer whose stored hash is exactly the
rendering of the SHA-512 of its current contact list (the claim's
hash-equality premise), with the credentials secret present and its key
decoding, the reconciler issues NO RPC at all — `UpdateReg` is not called.
The `reflect.DeepEqual` comparison pits a `[64]byte` array against a
`[]byte` slice and is false for values of distinct types. -/
theorem c2_counterexample :
    issuerA.account.status.hash =
        fmtSprintBytes (envAcct.sha512Bytes (fmtSprintStrList issuerA.account.contacts)) ∧
      (syncAccount envAcct issuerA "cm").rpcs = [] ∧
      AccountRPC.updateReg ∉ (syncAccount envAcct issuerA "cm").rpcs := by
  refine ⟨rfl, ?_, ?_⟩ <;> decide

/-- C2 amended: whenever the credentials secret exists and its key
decodes, the hash comparison (a `[64]byte` against a `[]byte` under
`reflect.DeepEqual`) is always false, so `UpdateReg` is never called;
instead the handler calls `GetReg` exactly when the stored URI is empty
and otherwise issues no RPC. -/
theorem c2_amended (env : AccountSyncEnv) (issuer : AcmeCertIssuer)
    (cmName sName : String)
    (hfound : env.secretLookup
      (defaultSecretName issuer cmName).accountCredentialsSecretName = .found sName)
    (hkey : env.decodeKey sName = .ok ()) :
    AccountRPC.updateReg ∉ (syncAccount env issuer cmName).rpcs ∧
      (syncAccount env issuer cmName).rpcs =
        (if (defaultSecretName issuer cmName).account.status.uri = "" then
          [AccountRPC.getReg] else []) := by
  unfold syncAccount
  dsimp only
  rw [hfound]
  dsimp only
  rw [hkey]
  have hde : reflectDeepEqual (hashAccount env.sha512Bytes (defaultSecretName issuer cmName).account)
      (.byteSlice (stringBytes (defaultSecretName issuer cmName).account.status.hash)) = false := rfl
  rw [hde]
  dsimp only
  by_cases huri : (defaultSecretName issuer cmName).account.status.uri = ""
  · simp only [huri, if_pos rfl]
    cases env.getRegResult <;> simp
  · simp only [if_neg huri]
    simp

/-- C2 witness: the amended claim on the concrete issuer with an empty
stored URI — the handler calls `GetReg`, never `UpdateReg`. -/
theorem c2_witness :
    AccountRPC.updateReg ∉ (syncAccount envAcct issuerB "cm").rpcs ∧
      (syncAccount envAcct issuerB "cm").rpcs = [AccountRPC.getReg] := by
  have h := c2_amended envAcct issuerB "cm" "creds" rfl rfl
  simpa using h

/-- C10: in the no-RPC branch (secret present, key decodes, stored URI
nonempty — the hash comparison being always false), the write-back still
overwrites the status fields `uri`, `orders_url` and `account_status` with
the zero account's empty strings: a previously stored CA-assigned URI is
erased rather than left unchanged. -/
theorem c10_no_rpc_overwrites_status (env : AccountSyncEnv)
    (issuer : AcmeCertIssuer) (cmName sName : String)
    (hfound : env.secretLookup
      (defaultSecretName issuer cmName).accountCredentialsSecretName = .found sName)
    (hkey : env.decodeKey sName = .ok ())
    (huri : (defaultSecretName issuer cmName).account.status.uri ≠ "") :
    (syncAccount env issuer cmName).rpcs = [] ∧
      (syncAccount env issuer cmName).err = none ∧
      ∃ fi, (syncAccount env issuer cmName).finalIssuer = some fi ∧
        fi.account.status.uri = "" ∧ fi.account.status.ordersUrl = "" ∧
        fi.account.status.accountStatus = "" := by
  unfold syncAccount
  dsimp only
  rw [hfound]
  dsimp only
  rw [hkey]
  have hde : reflectDeepEqual (hashAccount env.sha512Bytes (defaultSecretName issuer cmName).account)
      (.byteSlice (stringBytes (defaultSecretName issuer cmName).account.status.hash)) = false := rfl
  rw [hde]
  dsimp only
  rw [if_neg huri]
  refine ⟨rfl, rfl, ?_⟩
  refine ⟨_, rfl, ?_, ?_, ?_⟩ <;> simp [accountWriteBack]

/-- C10 witness: the concrete issuer with stored URI
`https://ca/acct/1` comes out of the no-RPC pass with its URI, orders URL
and account status erased. -/
theorem c10_witness :
    (syncAccount envAcct issuerA "cm").rpcs = [] ∧
      (syncAccount envAcct issuerA "cm").err = none ∧
      ∃ fi, (syncAccount envAcct issuerA "cm").finalIssuer = some fi ∧
        fi.account.status.uri = "" ∧ fi.account.status.ordersUrl = "" ∧
        fi.account.status.accountStatus = "" :=
  c10_no_rpc_overwrites_status envAcct issuerA "cm" "creds" rfl rfl (by decide)
